import Mathlib

/-!
Verification development for the Entod sales dashboard core
(file entod_current_month_dashboard.py): the filter engine
(create_sidebar_filters / apply_filters), the top-N aggregator
(the state_agg / div_agg pipeline), the YoY comparator
(month options, month restriction, totals and differences), the
lenient date coercion of the prior-year Month column, and the
difference display formatter (format_diff_arrow).

Tables are embedded as ordered lists of rows; a row is an association
list from column name to cell value; machine floats are embedded as
exact integers; missing data (NaN / NaT) is the null value.
-/

namespace Entod

/-- Cell values of a loaded table: trimmed strings, exact numerics,
parsed calendar dates (month, year), and null for missing data (NaN / NaT). -/
inductive Value where
  | str : String → Value
  | num : Int → Value
  | date : Nat → Nat → Value
  | null : Value
  deriving DecidableEq

/-- Test for the missing-data value (pandas NaN / NaT). -/
def Value.isNull : Value → Bool
  | .null => true
  | _ => false

/-- Numeric reading of a cell for summation: a numeric cell is itself,
anything else (missing or non-numeric) contributes 0, matching the
skipna summation the dashboard relies on. -/
def Value.toNum : Value → Int
  | .num n => n
  | _ => 0

/-- Constructor tag, used to order values of different kinds totally. -/
def Value.tag : Value → Nat
  | .null => 0
  | .num _ => 1
  | .str _ => 2
  | .date _ _ => 3

/-- Executable lexicographic comparison of character lists, the order
python string comparison uses (code points, shorter is smaller). -/
def lexLe : List Char → List Char → Bool
  | [], _ => true
  | _ :: _, [] => false
  | a :: as, b :: bs => if a = b then lexLe as bs else decide (a < b)

/-- Executable code-point lexicographic comparison of strings. -/
def strLe (a b : String) : Bool := lexLe a.toList b.toList

/-- Boolean comparison on cell values: numerics by integer order, strings
by code-point lexicographic order (the order python sorted uses), dates
chronologically, and values of different kinds by constructor tag. -/
def Value.ble : Value → Value → Bool
  | .num a, .num b => decide (a ≤ b)
  | .str a, .str b => strLe a b
  | .date m y, .date m2 y2 => decide (y < y2 ∨ (y = y2 ∧ m ≤ m2))
  | a, b => decide (a.tag ≤ b.tag)

/-- Propositional form of the value order. -/
def Value.le (a b : Value) : Prop := Value.ble a b = true

instance : DecidableRel Value.le :=
  fun a b => inferInstanceAs (Decidable (Value.ble a b = true))

/-- A row of a table: an association list from column name to value. -/
abbrev Row := List (String × Value)

/-- A table: an ordered sequence of rows. -/
abbrev Table := List Row

/-- Cell lookup: the value of the first matching column in a row, null
when the column is absent. -/
def cell : Row → String → Value
  | [], _ => Value.null
  | p :: r, c => if p.1 = c then p.2 else cell r c

/-- Embedding of apply_filters: starting from the whole table, keep for
each (column, permitted values) pair only the rows whose cell in that
column is a member of the permitted list, folding over the filter
entries in order. -/
def apply_filters (t : Table) (fs : List (String × List Value)) : Table :=
  match fs with
  | [] => t
  | f :: rest => apply_filters (t.filter (fun r => decide (cell r f.1 ∈ f.2))) rest

/-- The three columns the sidebar never builds a filter for. -/
def reservedCols : List String := ["Sales Qty", "Sales Amt", "Month"]

/-- Embedding of the filter-construction core of create_sidebar_filters:
for each table column that is neither excluded nor reserved, the user
selection for that column becomes a filter entry unless the selection
contains the sentinel value ALL, in which case the column is left
unrestricted. -/
def create_sidebar_filters (cols exclude : List String)
    (selections : String → List Value) : List (String × List Value) :=
  (cols.filter (fun c => decide (c ∉ exclude ∧ c ∉ reservedCols))).filterMap
    (fun c => if Value.str "ALL" ∈ selections c then none else some (c, selections c))

/-- The values of one column down a table, in row order. -/
def colValues (t : Table) (c : String) : List Value :=
  t.map (fun r => cell r c)

/-- Embedding of df[col].dropna().unique(): the non-null values of a
column with duplicates removed, keeping first occurrences. -/
def distinctNonNull (t : Table) (c : String) : List Value :=
  ((colValues t c).filter (fun v => !(Value.isNull v))).dedup

/-- Embedding of python sorted on column values: a stable ascending sort. -/
def sortVals (l : List Value) : List Value := l.insertionSort Value.le

/-- Embedding of the option list offered for one sidebar column: the ALL
sentinel followed by the sorted distinct non-null values of the column. -/
def sidebar_options (t : Table) (c : String) : List Value :=
  Value.str "ALL" :: sortVals (distinctNonNull t c)

/-- The option map the sidebar builds: one entry per table column that is
neither excluded nor reserved. -/
def sidebar_option_map (cols exclude : List String) (t : Table) :
    List (String × List Value) :=
  (cols.filter (fun c => decide (c ∉ exclude ∧ c ∉ reservedCols))).map
    (fun c => (c, sidebar_options t c))

/-- Descending comparison of aggregation entries by summed total. -/
def descTotal (p q : Value × Int) : Prop := q.2 ≤ p.2

instance : DecidableRel descTotal :=
  fun p q => inferInstanceAs (Decidable (q.2 ≤ p.2))

instance : IsTotal (Value × Int) descTotal := ⟨fun p q => Int.le_total q.2 p.2⟩

instance : IsTrans (Value × Int) descTotal := ⟨fun _ _ _ h1 h2 => le_trans h2 h1⟩

/-- The summed metric of the rows of a table whose group-column cell
equals a given key, with missing and non-numeric cells counted as 0. -/
def groupTotal (t : Table) (g m : String) (k : Value) : Int :=
  ((t.filter (fun r => decide (cell r g = k))).map (fun r => (cell r m).toNum)).sum

/-- Embedding of groupby(g)[m].sum().reset_index(): one (key, total)
entry per distinct non-null group key, keys in ascending order (pandas
groupby sorts group keys and drops null keys). -/
def groupbySum (t : Table) (g m : String) : List (Value × Int) :=
  (sortVals (distinctNonNull t g)).map (fun k => (k, groupTotal t g m k))

/-- Embedding of sort_values(m, ascending=False): pandas nargsort
reverses the array before the ascending argsort and reverses the
resulting indexer after it, so the net effect is a stable descending
sort in which entries with equal totals keep their input order. -/
def sort_values_desc (l : List (Value × Int)) : List (Value × Int) :=
  l.insertionSort descTotal

/-- Embedding of the state_agg / div_agg pipeline: group, sum, sort
descending by total, truncate with head. -/
def topN (t : Table) (g m : String) (n : Nat) : List (Value × Int) :=
  (sort_values_desc (groupbySum t g m)).take n

/-- Embedding of df[c].sum(): the metric total of a whole table. -/
def colSum (t : Table) (c : String) : Int :=
  (t.map (fun r => (cell r c).toNum)).sum

/-- English month names as produced by strftime %B. -/
def monthName : Nat → String
  | 1 => "January"
  | 2 => "February"
  | 3 => "March"
  | 4 => "April"
  | 5 => "May"
  | 6 => "June"
  | 7 => "July"
  | 8 => "August"
  | 9 => "September"
  | 10 => "October"
  | 11 => "November"
  | 12 => "December"
  | _ => ""

/-- Embedding of Month.dt.strftime("%B-%Y") on one cell: a date formats
to MonthName-Year, anything else (in particular NaT) formats to missing. -/
def fmtMonth : Value → Option String
  | .date m y => some (monthName m ++ "-" ++ toString y)
  | _ => none

/-- Embedding of the month restriction on the prior table: keep the rows
whose formatted Month equals the selected month; rows whose Month is
null never compare equal to a selection. -/
def monthRestrict (t : Table) (sel : String) : Table :=
  t.filter (fun r => decide (fmtMonth (cell r "Month") = some sel))

/-- Propositional form of the executable string order. -/
def strLeP (a b : String) : Prop := strLe a b = true

instance : DecidableRel strLeP :=
  fun a b => inferInstanceAs (Decidable (strLe a b = true))

/-- Embedding of python sorted on strings: a stable ascending sort. -/
def sortStrings (l : List String) : List String :=
  l.insertionSort strLeP

/-- Embedding of month_opts: the sorted distinct formatted Month strings
of the prior table, null dates dropped. -/
def month_opts (t : Table) : List String :=
  sortStrings ((t.filterMap (fun r => fmtMonth (cell r "Month"))).dedup)

/-- The month options offered while some filter state is active: the
source computes them from the unfiltered prior table, so the active
filter argument is not consulted. -/
def yoy_month_opts (prior : Table) (_fs : List (String × List Value)) : List String :=
  month_opts prior

/-- One YoY comparison cell: the current total, the prior total, and
their signed difference. -/
structure MetricCmp where
  current : Int
  prior : Int
  diff : Int
  deriving DecidableEq

/-- Embedding of the YoY comparison page computation: the same filter is
applied to both tables, the prior table is further restricted to the
selected month, and both metrics are totalled and differenced. -/
def yoyCompare (cur prior : Table) (fs : List (String × List Value))
    (sel : String) : MetricCmp × MetricCmp :=
  let fc := apply_filters cur fs
  let fl := monthRestrict (apply_filters prior fs) sel
  (⟨colSum fc "Sales Qty", colSum fl "Sales Qty",
      colSum fc "Sales Qty" - colSum fl "Sales Qty"⟩,
   ⟨colSum fc "Sales Amt", colSum fl "Sales Amt",
      colSum fc "Sales Amt" - colSum fl "Sales Amt"⟩)

/-- Embedding of pd.to_datetime(x, errors="coerce") on one cell, for an
arbitrary underlying date parser: a string that parses becomes a date,
a string that does not parse becomes null, a date stays, and anything
else coerces to null. -/
def coerceDate (parse : String → Option (Nat × Nat)) : Value → Value
  | .str s =>
    match parse s with
    | some p => .date p.1 p.2
    | none => .null
  | .date m y => .date m y
  | _ => .null

/-- Coercion of the Month column of one row: the Month cell is rewritten
through coerceDate, every other cell is untouched, and the row is kept. -/
def rowCoerceMonth (parse : String → Option (Nat × Nat)) (r : Row) : Row :=
  r.map (fun p => if p.1 = "Month" then (p.1, coerceDate parse p.2) else p)

/-- Embedding of the Month column coercion of the prior table: every row
is kept, with its Month cell coerced. -/
def toDatetimeMonth (parse : String → Option (Nat × Nat)) (t : Table) : Table :=
  t.map (rowCoerceMonth parse)

/-- Comma grouping of a reversed digit list: a comma after every third
digit, counted from the least significant end. -/
def chunk3 : List Char → List Char
  | a :: b :: c :: d :: rest => a :: b :: c :: ',' :: chunk3 (d :: rest)
  | l => l

/-- Embedding of the python format spec with comma grouping and zero
decimal places, applied to an exact natural magnitude. -/
def commaSep (n : Nat) : String :=
  String.mk ((chunk3 (toString n).toList.reverse).reverse)

/-- Embedding of format_diff_arrow: a three-way branch on the signed
difference, with a textually distinct neutral branch for zero. -/
def format_diff_arrow (v : Int) : String :=
  if v > 0 then
    "<span style=\"color:green; font-weight:bold;\">▲ " ++ commaSep v.natAbs ++ "</span>"
  else if v < 0 then
    "<span style=\"color:red; font-weight:bold;\">▼ " ++ commaSep v.natAbs ++ "</span>"
  else
    "<span style=\"color:gray; font-weight:bold;\">0</span>"

/-- Current-table fixture row: state MH, quantity 10, amount 300. -/
def exRow1 : Row :=
  [("State Name", Value.str "MH"), ("Sales Qty", Value.num 10),
   ("Sales Amt", Value.num 300)]

/-- Current-table fixture row: state MH, quantity 5, amount 150. -/
def exRow2 : Row :=
  [("State Name", Value.str "MH"), ("Sales Qty", Value.num 5),
   ("Sales Amt", Value.num 150)]

/-- Current-table fixture row: state GA, quantity 8, amount 50. -/
def exRow3 : Row :=
  [("State Name", Value.str "GA"), ("Sales Qty", Value.num 8),
   ("Sales Amt", Value.num 50)]

/-- Current-table fixture with quantity total 23 and amount total 500. -/
def exTable : Table := [exRow1, exRow2, exRow3]

/-- A fixture filter keeping the MH rows. -/
def exFilters : List (String × List Value) :=
  [("State Name", [Value.str "MH"])]

/-- Prior-table fixture row for September 2024, amount 100. -/
def lyRow1 : Row :=
  [("State Name", Value.str "MH"), ("Sales Qty", Value.num 3),
   ("Sales Amt", Value.num 100), ("Month", Value.date 9 2024)]

/-- Prior-table fixture row for September 2024, amount 200. -/
def lyRow2 : Row :=
  [("State Name", Value.str "GA"), ("Sales Qty", Value.num 2),
   ("Sales Amt", Value.num 200), ("Month", Value.date 9 2024)]

/-- Prior-table fixture row for September 2024, amount 50. -/
def lyRow3 : Row :=
  [("State Name", Value.str "MH"), ("Sales Qty", Value.num 4),
   ("Sales Amt", Value.num 50), ("Month", Value.date 9 2024)]

/-- Prior-table fixture with September 2024 amount total 350. -/
def lyTable : Table := [lyRow1, lyRow2, lyRow3]

/-- Tie fixture row: the group B is encountered first. -/
def tieRowB : Row :=
  [("State Name", Value.str "B"), ("Sales Qty", Value.num 5)]

/-- Tie fixture row: the group A is encountered second. -/
def tieRowA : Row :=
  [("State Name", Value.str "A"), ("Sales Qty", Value.num 5)]

/-- Tie fixture table: two groups with equal totals, B encountered first. -/
def tieTable : Table := [tieRowB, tieRowA]

/-- Fixture table with a single row whose group key is missing. -/
def nullKeyTable : Table :=
  [[("G", Value.null), ("Q", Value.num 7)]]

/-- Fixture selection: ALL together with an explicit value for the
division column, an explicit value everywhere else. -/
def exSel : String → List Value :=
  fun c => if c = "Division Name" then [Value.str "ALL", Value.str "D1"]
    else [Value.str "MH"]

/-- Fixture row whose Month cell is an unparseable string. -/
def strMonthRow : Row := [("Month", Value.str "bogus")]

/-- Fixture row whose Month cell is already null. -/
def nullMonthRow : Row := [("Month", Value.null)]

/-- Fixture selection choosing MH for every column. -/
def exSelMH : String → List Value := fun _ => [Value.str "MH"]

/-! Order lemmas: the executable comparisons agree with the ambient
linear orders, and the value order is total and transitive. -/

theorem lexLe_iff_not_lt :
    ∀ (as bs : List Char), lexLe as bs = true ↔ ¬ List.Lex (· < ·) bs as
  | [], bs => by
    simp only [lexLe]
    exact (iff_true_intro (fun h => nomatch h)).symm
  | _ :: _, [] => by
    simp only [lexLe, Bool.false_eq_true, false_iff, not_not]
    exact List.Lex.nil
  | a :: as, b :: bs => by
    by_cases hab : a = b
    · subst hab
      rw [lexLe, if_pos rfl, lexLe_iff_not_lt as bs]
      constructor
      · intro h hlt
        cases hlt with
        | cons h3 => exact h h3
        | rel h2 => exact absurd h2 (lt_irrefl a)
      · exact fun h hlt => h (List.Lex.cons hlt)
    · rw [lexLe, if_neg hab]
      simp only [decide_eq_true_eq]
      constructor
      · intro h hlt
        cases hlt with
        | cons h3 => exact hab rfl
        | rel h2 => exact absurd h (asymm h2)
      · intro h
        rcases lt_trichotomy a b with h1 | h1 | h1
        · exact h1
        · exact absurd h1 hab
        · exact absurd (List.Lex.rel h1) h

theorem strLe_le (a b : String) : strLe a b = true ↔ a ≤ b := by
  rw [String.le_iff_toList_le, ← not_lt]
  exact lexLe_iff_not_lt a.toList b.toList

theorem strLe_total (a b : String) : strLe a b = true ∨ strLe b a = true := by
  rcases le_total a b with h | h
  · exact Or.inl ((strLe_le a b).mpr h)
  · exact Or.inr ((strLe_le b a).mpr h)

theorem strLe_trans {a b c : String} (h1 : strLe a b = true) (h2 : strLe b c = true) :
    strLe a c = true :=
  (strLe_le a c).mpr (le_trans ((strLe_le a b).mp h1) ((strLe_le b c).mp h2))

theorem Value.ble_total (a b : Value) : Value.ble a b = true ∨ Value.ble b a = true := by
  cases a <;> cases b <;> simp only [Value.ble, Value.tag, decide_eq_true_eq] <;>
    first
      | omega
      | exact strLe_total _ _

theorem Value.ble_trans {a b c : Value} (h1 : Value.ble a b = true)
    (h2 : Value.ble b c = true) : Value.ble a c = true := by
  cases a <;> cases b <;> cases c <;>
    simp only [Value.ble, Value.tag, decide_eq_true_eq] at h1 h2 ⊢ <;>
    first
      | omega
      | exact strLe_trans h1 h2

instance : IsTotal Value Value.le := ⟨Value.ble_total⟩

instance : IsTrans Value Value.le := ⟨fun _ _ _ => Value.ble_trans⟩

instance : IsTotal String strLeP := ⟨strLe_total⟩

instance : IsTrans String strLeP := ⟨fun _ _ _ => strLe_trans⟩

/-! Filter engine lemmas. -/

theorem apply_filters_sublist : ∀ (fs : List (String × List Value)) (t : Table),
    (apply_filters t fs).Sublist t
  | [], t => List.Sublist.refl t
  | _ :: rest, t => (apply_filters_sublist rest _).trans (List.filter_sublist t)

theorem mem_apply_filters_sat : ∀ (fs : List (String × List Value)) (t : Table) (r : Row),
    r ∈ apply_filters t fs → ∀ p ∈ fs, cell r p.1 ∈ p.2
  | [], _, _, _ => by simp
  | f :: rest, t, r, hr => by
    intro p hp
    rcases List.mem_cons.mp hp with h | h
    · subst h
      have hrf : r ∈ t.filter (fun r2 => decide (cell r2 p.1 ∈ p.2)) :=
        (apply_filters_sublist rest _).subset hr
      exact of_decide_eq_true (List.mem_filter.mp hrf).2
    · exact mem_apply_filters_sat rest _ r hr p h

theorem create_sidebar_filters_append (cols1 cols2 exclude : List String)
    (selections : String → List Value) :
    create_sidebar_filters (cols1 ++ cols2) exclude selections =
      create_sidebar_filters cols1 exclude selections ++
        create_sidebar_filters cols2 exclude selections := by
  simp [create_sidebar_filters, List.filter_append, List.filterMap_append]

theorem create_sidebar_filters_single_all (col : String) (exclude : List String)
    (selections : String → List Value) (h : Value.str "ALL" ∈ selections col) :
    create_sidebar_filters [col] exclude selections = [] := by
  unfold create_sidebar_filters
  rcases hc : decide (col ∉ exclude ∧ col ∉ reservedCols) with _ | _
  · simp [List.filter, hc]
  · simp [List.filter, hc, h]

/-- C1: for every table and filter, every row of apply_filters satisfies
every filter entry (its cell in each filtered column is in the permitted
list), and the empty filter returns the table unchanged, in order. -/
theorem C1_apply_filters_sound (t : Table) (fs : List (String × List Value)) :
    (∀ r ∈ apply_filters t fs, ∀ p ∈ fs, cell r p.1 ∈ p.2) ∧
      apply_filters t [] = t :=
  ⟨fun r hr p hp => mem_apply_filters_sat fs t r hr p hp, rfl⟩

/-- Witness for C1 on a concrete table and filter. -/
theorem C1_witness :
    cell exRow1 "State Name" ∈ [Value.str "MH"] ∧ apply_filters exTable [] = exTable :=
  ⟨(C1_apply_filters_sound exTable exFilters).1 exRow1 (by decide)
      ("State Name", [Value.str "MH"]) (by decide),
   (C1_apply_filters_sound exTable exFilters).2⟩

/-- C2: any selection containing the sentinel ALL is treated as
unrestricted: building the sidebar filters with an extra column whose
selection contains ALL and applying them gives exactly the same result
as with that column omitted. -/
theorem C2_all_sentinel (t : Table) (cols exclude : List String)
    (selections : String → List Value) (col : String)
    (hall : Value.str "ALL" ∈ selections col) :
    apply_filters t (create_sidebar_filters (cols ++ [col]) exclude selections) =
      apply_filters t (create_sidebar_filters cols exclude selections) := by
  rw [create_sidebar_filters_append,
    create_sidebar_filters_single_all col exclude selections hall, List.append_nil]

/-- Witness for C2: ALL co-selected with an explicit division value. -/
theorem C2_witness :
    apply_filters exTable
        (create_sidebar_filters (["State Name"] ++ ["Division Name"]) [] exSel) =
      apply_filters exTable (create_sidebar_filters ["State Name"] [] exSel) :=
  C2_all_sentinel exTable ["State Name"] [] exSel "Division Name" (by decide)

/-- C10: apply_filters is pure and frame-preserving: its result is an
order-preserving subsequence of the rows of the input table, and every
result row is literally a row of the input (hence unmodified, with the
same column set). -/
theorem C10_frame (t : Table) (fs : List (String × List Value)) :
    (apply_filters t fs).Sublist t ∧ ∀ r ∈ apply_filters t fs, r ∈ t :=
  ⟨apply_filters_sublist fs t, fun r hr => (apply_filters_sublist fs t).subset hr⟩

/-- Witness for C10 on a concrete table and filter. -/
theorem C10_witness :
    (apply_filters exTable exFilters).Sublist exTable ∧ exRow1 ∈ exTable :=
  ⟨(C10_frame exTable exFilters).1, (C10_frame exTable exFilters).2 exRow1 (by decide)⟩

/-! Aggregator lemmas. -/

theorem sortVals_mem {l : List Value} {v : Value} : v ∈ sortVals l ↔ v ∈ l :=
  List.mem_insertionSort Value.le

theorem sortVals_sorted (l : List Value) : List.Sorted Value.le (sortVals l) :=
  List.sorted_insertionSort Value.le l

theorem sortVals_nodup {l : List Value} (h : l.Nodup) : (sortVals l).Nodup :=
  ((List.perm_insertionSort Value.le l).nodup_iff).mpr h

theorem distinctNonNull_nodup (t : Table) (c : String) : (distinctNonNull t c).Nodup :=
  List.nodup_dedup _

theorem mem_distinctNonNull {t : Table} {c : String} {v : Value} :
    v ∈ distinctNonNull t c ↔ (v ∈ colValues t c ∧ Value.isNull v = false) := by
  simp [distinctNonNull, List.mem_dedup, List.mem_filter]

theorem mem_groupbySum {t : Table} {g m : String} {p : Value × Int}
    (hp : p ∈ groupbySum t g m) :
    p.2 = groupTotal t g m p.1 ∧ p.1 ∈ sortVals (distinctNonNull t g) := by
  rcases List.mem_map.mp hp with ⟨k, hk, he⟩
  cases he
  exact ⟨rfl, hk⟩

theorem groupbySum_pairwise_key (t : Table) (g m : String) :
    (groupbySum t g m).Pairwise (fun p q => Value.le p.1 q.1) := by
  unfold groupbySum
  rw [List.pairwise_map]
  exact sortVals_sorted _

theorem sort_values_desc_perm (l : List (Value × Int)) : (sort_values_desc l).Perm l :=
  List.perm_insertionSort descTotal l

theorem sort_values_desc_sorted (l : List (Value × Int)) :
    (sort_values_desc l).Pairwise descTotal :=
  List.sorted_insertionSort descTotal l

theorem topN_sorted_desc (t : Table) (g m : String) (n : Nat) :
    (topN t g m n).Pairwise descTotal :=
  List.Pairwise.sublist (List.take_sublist n _) (sort_values_desc_sorted _)

theorem filter_sort_values_desc (l : List (Value × Int)) (v : Int) :
    (sort_values_desc l).filter (fun p => decide (p.2 = v)) =
      l.filter (fun p => decide (p.2 = v)) := by
  have hmem : ∀ p ∈ l.filter (fun p => decide (p.2 = v)), p.2 = v := fun p hp =>
    of_decide_eq_true (List.mem_filter.mp hp).2
  have hpw : (l.filter (fun p => decide (p.2 = v))).Pairwise descTotal :=
    List.pairwise_of_forall_mem_list (fun a ha b hb => by
      show b.2 ≤ a.2
      rw [hmem a ha, hmem b hb])
  have hsub : (l.filter (fun p => decide (p.2 = v))).Sublist (sort_values_desc l) :=
    List.sublist_insertionSort hpw (List.filter_sublist l)
  have hidem : (l.filter (fun p => decide (p.2 = v))).filter (fun p => decide (p.2 = v)) =
      l.filter (fun p => decide (p.2 = v)) :=
    List.filter_eq_self.mpr (fun a ha => (List.mem_filter.mp ha).2)
  have hsub2 : (l.filter (fun p => decide (p.2 = v))).Sublist
      ((sort_values_desc l).filter (fun p => decide (p.2 = v))) := by
    have h3 := List.Sublist.filter (fun p => decide (p.2 = v)) hsub
    rwa [hidem] at h3
  have hlen : ((sort_values_desc l).filter (fun p => decide (p.2 = v))).length =
      (l.filter (fun p => decide (p.2 = v))).length :=
    (List.Perm.filter _ (sort_values_desc_perm l)).length_eq
  exact (hsub2.eq_of_length hlen.symm).symm

theorem groupbySum_tie_order (t : Table) (g m : String) (v : Int) :
    ((sort_values_desc (groupbySum t g m)).filter
        (fun p => decide (p.2 = v))).Pairwise (fun p q => Value.le p.1 q.1) := by
  rw [filter_sort_values_desc]
  exact List.Pairwise.filter _ (groupbySum_pairwise_key t g m)

theorem groupTotal_cons (r : Row) (t : Table) (g m : String) (k : Value) :
    groupTotal (r :: t) g m k =
      (if cell r g = k then (cell r m).toNum else 0) + groupTotal t g m k := by
  unfold groupTotal
  rw [List.filter_cons]
  by_cases h : cell r g = k
  · simp [h]
  · simp [h]

theorem sum_ite_zero (ks : List Value) (x : Value) (hx : x ∉ ks) (c : Int) :
    (ks.map (fun k => if x = k then c else 0)).sum = 0 := by
  induction ks with
  | nil => rfl
  | cons k0 ks ih =>
    have hx0 : ¬ (x = k0) := fun h => hx (h ▸ List.mem_cons_self k0 ks)
    simp only [List.map_cons, List.sum_cons, if_neg hx0]
    rw [ih (fun h => hx (List.mem_cons_of_mem _ h))]
    simp

theorem sum_ite_single (ks : List Value) (hnd : ks.Nodup) (x : Value) (hx : x ∈ ks)
    (c : Int) : (ks.map (fun k => if x = k then c else 0)).sum = c := by
  induction ks with
  | nil => cases hx
  | cons k0 ks ih =>
    rcases List.mem_cons.mp hx with h | h
    · subst h
      simp only [List.map_cons, List.sum_cons, if_pos rfl]
      rw [sum_ite_zero ks x (List.nodup_cons.mp hnd).1]
      simp
    · have hne : ¬ (x = k0) := fun he => (List.nodup_cons.mp hnd).1 (he ▸ h)
      simp only [List.map_cons, List.sum_cons, if_neg hne]
      rw [ih (List.nodup_cons.mp hnd).2 h]
      simp

theorem groupTotal_partition (t : Table) (g m : String) (ks : List Value)
    (hnd : ks.Nodup) (hcov : ∀ r ∈ t, cell r g ∈ ks) :
    (ks.map (groupTotal t g m)).sum = colSum t m := by
  induction t with
  | nil =>
    have h0 : groupTotal ([] : Table) g m = fun _ => (0 : Int) := rfl
    rw [h0]
    simp [colSum]
  | cons r t ih =>
    have h1 : groupTotal (r :: t) g m = fun k =>
        (if cell r g = k then (cell r m).toNum else 0) + groupTotal t g m k :=
      funext (groupTotal_cons r t g m)
    calc (ks.map (groupTotal (r :: t) g m)).sum
        = (ks.map (fun k =>
            (if cell r g = k then (cell r m).toNum else 0) + groupTotal t g m k)).sum := by
          rw [h1]
      _ = (ks.map (fun k => if cell r g = k then (cell r m).toNum else 0)).sum +
            (ks.map (groupTotal t g m)).sum := List.sum_map_add
      _ = (cell r m).toNum + colSum t m := by
          rw [sum_ite_single ks hnd (cell r g) (hcov r (List.mem_cons_self r t)),
            ih (fun r2 h2 => hcov r2 (List.mem_cons_of_mem _ h2))]
      _ = colSum (r :: t) m := by simp [colSum]

theorem groupbySum_total (t : Table) (g m : String)
    (hnn : ∀ r ∈ t, Value.isNull (cell r g) = false) :
    ((groupbySum t g m).map Prod.snd).sum = colSum t m := by
  unfold groupbySum
  rw [List.map_map]
  have h0 : (Prod.snd ∘ fun k => (k, groupTotal t g m k)) = groupTotal t g m := rfl
  rw [h0]
  apply groupTotal_partition
  · exact sortVals_nodup (distinctNonNull_nodup t g)
  · intro r hr
    rw [sortVals_mem, mem_distinctNonNull]
    exact ⟨List.mem_map_of_mem _ hr, hnn r hr⟩

/-- C3 counterexample: on a table whose first-encountered group is B and
whose two groups tie, groupby emits the groups in ascending key order
[A, B] and the stable descending value sort keeps that order, so the
pipeline puts A first and ties are not broken in favor of the
first-encountered group. -/
theorem C3_counterexample :
    topN tieTable "State Name" "Sales Qty" 10
        = [(Value.str "A", 5), (Value.str "B", 5)] ∧
      [(Value.str "A", 5), (Value.str "B", 5)] ≠
        [(Value.str "B", 5), (Value.str "A", 5)] := by decide

/-- C3 (amended): the aggregation groups rows by the group column
(dropping null keys), sums the metric within each group with missing and
non-numeric values as 0, sorts descending by summed total, truncates to
the first n entries; ties are broken by ascending group key (groupby
emits group keys in ascending order and the descending value sort is
stable, preserving that order among equal totals), not by first
encounter. -/
theorem C3_topn_amended (t : Table) (g m : String) (n : Nat) :
    (∀ p ∈ topN t g m n, p.2 = groupTotal t g m p.1)
  ∧ (∀ p ∈ topN t g m n, Value.isNull p.1 = false ∧ p.1 ∈ colValues t g)
  ∧ (topN t g m n).Pairwise descTotal
  ∧ (topN t g m n).length ≤ n
  ∧ (∀ v : Int, ((sort_values_desc (groupbySum t g m)).filter
        (fun p => decide (p.2 = v))).Pairwise (fun p q => Value.le p.1 q.1)) := by
  have hmem : ∀ p ∈ topN t g m n, p ∈ groupbySum t g m := fun p hp =>
    ((sort_values_desc_perm _).mem_iff).mp ((List.take_sublist n _).subset hp)
  refine ⟨?_, ?_, topN_sorted_desc t g m n, ?_, groupbySum_tie_order t g m⟩
  · exact fun p hp => (mem_groupbySum (hmem p hp)).1
  · intro p hp
    have h2 := (mem_groupbySum (hmem p hp)).2
    rw [sortVals_mem, mem_distinctNonNull] at h2
    exact ⟨h2.2, h2.1⟩
  · rw [topN, List.length_take]
    exact inf_le_left

/-- Witness for the amended C3 on the tie fixture. -/
theorem C3_witness :
    (5 : Int) = groupTotal tieTable "State Name" "Sales Qty" (Value.str "B")
  ∧ (topN tieTable "State Name" "Sales Qty" 10).length ≤ 10 :=
  ⟨(C3_topn_amended tieTable "State Name" "Sales Qty" 10).1
      (Value.str "B", 5) (by decide),
   (C3_topn_amended tieTable "State Name" "Sales Qty" 10).2.2.2.1⟩

/-- C4 counterexample: on an unfiltered table whose single row has a
missing group key, groupby drops the row, so the group totals sum to 0
while the metric column sums to 7, refuting unconditional sum
preservation. -/
theorem C4_counterexample :
    ((groupbySum nullKeyTable "G" "Q").map Prod.snd).sum = 0
  ∧ colSum nullKeyTable "Q" = 7
  ∧ ((groupbySum nullKeyTable "G" "Q").map Prod.snd).sum ≠
      colSum nullKeyTable "Q" := by decide

/-- C4 (amended): the aggregation output has length at most n and at
most the number of distinct (non-null) groups, its totals are
non-increasing, and when the group column has no missing values the
group totals of the untruncated aggregation sum to the metric total of
the whole table. -/
theorem C4_topn_bounds (t : Table) (g m : String) (n : Nat) :
    (topN t g m n).length ≤ n
  ∧ (topN t g m n).length ≤ (distinctNonNull t g).length
  ∧ ((topN t g m n).map Prod.snd).Pairwise (fun a b : Int => b ≤ a)
  ∧ ((∀ r ∈ t, Value.isNull (cell r g) = false) →
      ((groupbySum t g m).map Prod.snd).sum = colSum t m) := by
  refine ⟨?_, ?_, ?_, groupbySum_total t g m⟩
  · rw [topN, List.length_take]
    exact inf_le_left
  · have hlen : (sort_values_desc (groupbySum t g m)).length =
        (distinctNonNull t g).length := by
      rw [(sort_values_desc_perm _).length_eq]
      simp [groupbySum, sortVals, List.length_insertionSort]
    rw [topN, List.length_take, hlen]
    exact inf_le_right
  · rw [List.pairwise_map]
    exact topN_sorted_desc t g m n

/-- Witness for C4 on the concrete current-table fixture. -/
theorem C4_witness :
    ((groupbySum exTable "State Name" "Sales Qty").map Prod.snd).sum =
      colSum exTable "Sales Qty" :=
  (C4_topn_bounds exTable "State Name" "Sales Qty" 10).2.2.2 (by decide)

/-! Comparator, month option and date coercion lemmas. -/

theorem mem_monthRestrict {t : Table} {sel : String} {r : Row}
    (h : r ∈ monthRestrict t sel) :
    r ∈ t ∧ fmtMonth (cell r "Month") = some sel := by
  have h2 := List.mem_filter.mp h
  exact ⟨h2.1, of_decide_eq_true h2.2⟩

theorem null_not_mem_monthRestrict {t : Table} {sel : String} {r : Row}
    (hnull : cell r "Month" = Value.null) : r ∉ monthRestrict t sel := by
  intro h
  have h2 := (mem_monthRestrict h).2
  rw [hnull] at h2
  simp [fmtMonth] at h2

theorem mem_month_opts {t : Table} {s : String} :
    s ∈ month_opts t ↔ ∃ r ∈ t, fmtMonth (cell r "Month") = some s := by
  unfold month_opts sortStrings
  rw [List.mem_insertionSort, List.mem_dedup, List.mem_filterMap]

theorem month_opts_nodup (t : Table) : (month_opts t).Nodup :=
  ((List.perm_insertionSort strLeP _).nodup_iff).mpr (List.nodup_dedup _)

theorem month_opts_sorted (t : Table) :
    (month_opts t).Pairwise (fun a b : String => a ≤ b) := by
  have h := List.sorted_insertionSort strLeP
    ((t.filterMap (fun r => fmtMonth (cell r "Month"))).dedup)
  exact h.imp (fun hab => (strLe_le _ _).mp hab)

theorem cell_rowCoerceMonth (parse : String → Option (Nat × Nat)) (r : Row)
    (c : String) :
    cell (rowCoerceMonth parse r) c =
      if c = "Month" then coerceDate parse (cell r "Month") else cell r c := by
  induction r with
  | nil => by_cases h : c = "Month" <;> simp [rowCoerceMonth, cell, h, coerceDate]
  | cons p r ih =>
    unfold rowCoerceMonth at ih ⊢
    simp only [List.map_cons]
    by_cases hc : c = "Month"
    · subst hc
      by_cases hp : p.1 = "Month"
      · simp [cell, hp]
      · simp [cell, hp, ih]
    · by_cases hpc : p.1 = c
      · have hp : ¬ p.1 = "Month" := by rw [hpc]; exact hc
        simp [cell, hp, hpc, hc]
      · by_cases hp : p.1 = "Month"
        · simp [cell, hp, hpc, ih, hc, Ne.symm hc]
        · simp [cell, hp, hpc, ih, hc]

/-- C5: for every filter and month selection, each YoY difference equals
the current filtered total minus the prior filtered month-restricted
total, exactly, an empty side totalling 0, and every prior row counted
matches the selected month after the shared filter. -/
theorem C5_compare (cur prior : Table) (fs : List (String × List Value))
    (sel : String) :
    ((yoyCompare cur prior fs sel).1.diff =
        colSum (apply_filters cur fs) "Sales Qty" -
          colSum (monthRestrict (apply_filters prior fs) sel) "Sales Qty")
  ∧ ((yoyCompare cur prior fs sel).2.diff =
        colSum (apply_filters cur fs) "Sales Amt" -
          colSum (monthRestrict (apply_filters prior fs) sel) "Sales Amt")
  ∧ (apply_filters cur fs = [] →
      (yoyCompare cur prior fs sel).1.current = 0 ∧
        (yoyCompare cur prior fs sel).2.current = 0)
  ∧ (monthRestrict (apply_filters prior fs) sel = [] →
      (yoyCompare cur prior fs sel).1.prior = 0 ∧
        (yoyCompare cur prior fs sel).2.prior = 0)
  ∧ (∀ r ∈ monthRestrict (apply_filters prior fs) sel,
      fmtMonth (cell r "Month") = some sel) := by
  refine ⟨rfl, rfl, ?_, ?_, fun r hr => (mem_monthRestrict hr).2⟩
  · intro h
    constructor <;> simp [yoyCompare, h, colSum]
  · intro h
    constructor <;> simp [yoyCompare, h, colSum]

/-- Witness for C5 on the concrete fixtures, matching the spec YoY
scenario, including the empty-side case. -/
theorem C5_witness :
    ((yoyCompare exTable lyTable [] "September-2024").2.diff =
        colSum (apply_filters exTable []) "Sales Amt" -
          colSum (monthRestrict (apply_filters lyTable []) "September-2024") "Sales Amt")
  ∧ ((yoyCompare ([] : Table) [] [] "X").1.current = 0 ∧
      (yoyCompare ([] : Table) [] [] "X").2.current = 0)
  ∧ ((yoyCompare ([] : Table) [] [] "X").1.prior = 0 ∧
      (yoyCompare ([] : Table) [] [] "X").2.prior = 0)
  ∧ fmtMonth (cell lyRow1 "Month") = some "September-2024" :=
  ⟨(C5_compare exTable lyTable [] "September-2024").2.1,
   (C5_compare [] [] [] "X").2.2.1 rfl,
   (C5_compare [] [] [] "X").2.2.2.1 rfl,
   (C5_compare [] lyTable [] "September-2024").2.2.2.2 lyRow1 (by decide)⟩

/-- C6: the difference formatter is a three-way branch: strictly positive
gives the up-indicator with the magnitude, strictly negative the
down-indicator with the absolute magnitude, and zero a distinct neutral
indicator that is neither an up nor a down form. -/
theorem C6_format_branches (v : Int) :
    (0 < v → format_diff_arrow v =
      "<span style=\"color:green; font-weight:bold;\">▲ " ++ commaSep v.natAbs ++ "</span>")
  ∧ (v < 0 → format_diff_arrow v =
      "<span style=\"color:red; font-weight:bold;\">▼ " ++ commaSep v.natAbs ++ "</span>")
  ∧ (v = 0 → format_diff_arrow v = "<span style=\"color:gray; font-weight:bold;\">0</span>")
  ∧ format_diff_arrow 0 ≠
      "<span style=\"color:green; font-weight:bold;\">▲ " ++ commaSep 0 ++ "</span>"
  ∧ format_diff_arrow 0 ≠
      "<span style=\"color:red; font-weight:bold;\">▼ " ++ commaSep 0 ++ "</span>" := by
  refine ⟨?_, ?_, ?_, by decide, by decide⟩
  · intro h
    rw [format_diff_arrow, if_pos h]
  · intro h
    rw [format_diff_arrow, if_neg (by omega), if_pos h]
  · intro h
    subst h
    rfl

/-- Witness for C6 at a positive, a negative and the zero input. -/
theorem C6_witness :
    format_diff_arrow 150 =
      "<span style=\"color:green; font-weight:bold;\">▲ " ++ commaSep (150 : Int).natAbs ++ "</span>"
  ∧ format_diff_arrow (-7) =
      "<span style=\"color:red; font-weight:bold;\">▼ " ++ commaSep ((-7 : Int)).natAbs ++ "</span>"
  ∧ format_diff_arrow 0 = "<span style=\"color:gray; font-weight:bold;\">0</span>" :=
  ⟨(C6_format_branches 150).1 (by decide),
   (C6_format_branches (-7)).2.1 (by decide),
   (C6_format_branches 0).2.2.1 rfl⟩

/-- C7: date coercion of the prior table keeps every row (an unparseable
Month becomes a null date rather than an error or a dropped row), leaves
other cells unchanged, and a null Month never matches any selected month
in the YoY restriction. -/
theorem C7_lenient_dates (parse : String → Option (Nat × Nat)) (t : Table) :
    (toDatetimeMonth parse t).length = t.length
  ∧ (∀ r ∈ t, rowCoerceMonth parse r ∈ toDatetimeMonth parse t)
  ∧ (∀ (r : Row) (s : String), cell r "Month" = Value.str s → parse s = none →
      cell (rowCoerceMonth parse r) "Month" = Value.null)
  ∧ (∀ (r : Row) (c : String), c ≠ "Month" →
      cell (rowCoerceMonth parse r) c = cell r c)
  ∧ (∀ (t2 : Table) (sel : String) (r : Row), cell r "Month" = Value.null →
      r ∉ monthRestrict t2 sel) := by
  refine ⟨List.length_map _ _, fun r hr => List.mem_map_of_mem _ hr, ?_, ?_, ?_⟩
  · intro r s hcell hparse
    rw [cell_rowCoerceMonth, if_pos rfl, hcell]
    simp [coerceDate, hparse]
  · intro r c hc
    rw [cell_rowCoerceMonth, if_neg hc]
  · exact fun t2 sel r hnull => null_not_mem_monthRestrict hnull

/-- Witness for C7 with an always-failing parser on concrete rows. -/
theorem C7_witness :
    (toDatetimeMonth (fun _ => none) [strMonthRow]).length = 1
  ∧ cell (rowCoerceMonth (fun _ => none) strMonthRow) "Month" = Value.null
  ∧ cell (rowCoerceMonth (fun _ => none) strMonthRow) "State Name" =
      cell strMonthRow "State Name"
  ∧ nullMonthRow ∉ monthRestrict [nullMonthRow] "September-2024" :=
  ⟨(C7_lenient_dates (fun _ => none) [strMonthRow]).1,
   (C7_lenient_dates (fun _ => none) [strMonthRow]).2.2.1 strMonthRow "bogus" rfl rfl,
   (C7_lenient_dates (fun _ => none) [strMonthRow]).2.2.2.1 strMonthRow "State Name"
     (by decide),
   (C7_lenient_dates (fun _ => none) []).2.2.2.2 [nullMonthRow] "September-2024"
     nullMonthRow rfl⟩

/-- C8: the selectable YoY months are computed from the unfiltered prior
table, so they are identical for any two filter states, and they are
exactly the distinct formatted Month strings of the prior table, without
duplicates and in ascending order. -/
theorem C8_month_options (prior : Table) (fs1 fs2 : List (String × List Value)) :
    yoy_month_opts prior fs1 = yoy_month_opts prior fs2
  ∧ (∀ s, s ∈ month_opts prior ↔ ∃ r ∈ prior, fmtMonth (cell r "Month") = some s)
  ∧ (month_opts prior).Nodup
  ∧ (month_opts prior).Pairwise (fun a b : String => a ≤ b) :=
  ⟨rfl, fun _ => mem_month_opts, month_opts_nodup prior, month_opts_sorted prior⟩

/-- Witness for C8 on the prior fixture with two different filter states. -/
theorem C8_witness :
    yoy_month_opts lyTable [] = yoy_month_opts lyTable [("State Name", [Value.str "MH"])]
  ∧ "September-2024" ∈ month_opts lyTable :=
  ⟨(C8_month_options lyTable [] [("State Name", [Value.str "MH"])]).1,
   ((C8_month_options lyTable [] []).2.1 "September-2024").mpr
     ⟨lyRow1, by decide, by decide⟩⟩

/-- C9: a constructed sidebar filter never restricts a reserved or
excluded column and never contains an ALL selection, the option map
covers exactly the non-reserved non-excluded table columns, and each
option list body is the sorted duplicate-free list of exactly the
non-null values of that column. -/
theorem C9_filter_engine (cols exclude : List String)
    (selections : String → List Value) (t : Table) :
    (∀ p ∈ create_sidebar_filters cols exclude selections,
        p.1 ∉ reservedCols ∧ p.1 ∉ exclude ∧ p.1 ∈ cols ∧ Value.str "ALL" ∉ p.2)
  ∧ (∀ c vs, (c, vs) ∈ sidebar_option_map cols exclude t ↔
        (c ∈ cols ∧ c ∉ exclude ∧ c ∉ reservedCols ∧ vs = sidebar_options t c))
  ∧ (∀ c, List.Sorted Value.le (sortVals (distinctNonNull t c))
        ∧ (sortVals (distinctNonNull t c)).Nodup
        ∧ ∀ v, v ∈ sortVals (distinctNonNull t c) ↔
            (v ∈ colValues t c ∧ Value.isNull v = false)) := by
  refine ⟨?_, ?_, ?_⟩
  · intro p hp
    rcases List.mem_filterMap.mp hp with ⟨c, hc, he⟩
    have hc2 := List.mem_filter.mp hc
    have hc3 := of_decide_eq_true hc2.2
    by_cases hall : Value.str "ALL" ∈ selections c
    · rw [if_pos hall] at he
      cases he
    · rw [if_neg hall] at he
      cases he
      exact ⟨hc3.2, hc3.1, hc2.1, hall⟩
  · intro c vs
    unfold sidebar_option_map
    rw [List.mem_map]
    constructor
    · rintro ⟨c2, hc2, he⟩
      have he2 := Prod.mk.injEq .. |>.mp he
      rcases he2 with ⟨he1, hev⟩
      subst he1
      have hm := List.mem_filter.mp hc2
      have hm2 := of_decide_eq_true hm.2
      exact ⟨hm.1, hm2.1, hm2.2, hev.symm⟩
    · rintro ⟨h1, h2, h3, h4⟩
      refine ⟨c, List.mem_filter.mpr ⟨h1, decide_eq_true ⟨h2, h3⟩⟩, ?_⟩
      rw [h4]
  · intro c
    refine ⟨sortVals_sorted _, sortVals_nodup (distinctNonNull_nodup t c), ?_⟩
    intro v
    rw [sortVals_mem, mem_distinctNonNull]

/-- Witness for C9 on a concrete column list, selection and table. -/
theorem C9_witness :
    ("State Name" ∉ reservedCols ∧ "State Name" ∉ ([] : List String)
        ∧ "State Name" ∈ ["State Name", "Sales Qty"]
        ∧ Value.str "ALL" ∉ exSelMH "State Name")
  ∧ ("State Name", sidebar_options exTable "State Name") ∈
      sidebar_option_map ["State Name", "Sales Qty"] [] exTable
  ∧ Value.str "GA" ∈ sortVals (distinctNonNull exTable "State Name") :=
  ⟨(C9_filter_engine ["State Name", "Sales Qty"] [] exSelMH exTable).1
      ("State Name", exSelMH "State Name") (by decide),
   ((C9_filter_engine ["State Name", "Sales Qty"] [] exSelMH exTable).2.1
      "State Name" (sidebar_options exTable "State Name")).mpr
     ⟨by decide, by decide, by decide, rfl⟩,
   (((C9_filter_engine ["State Name", "Sales Qty"] [] exSelMH exTable).2.2
      "State Name").2.2 (Value.str "GA")).mpr ⟨by decide, rfl⟩⟩

end Entod
